import Mathlib

/-!
Verification of the SMS PDU codec of the `xlab/at` repository.

Bytes are modelled as `Nat` values below 256; every operation that Go
truncates to `byte` carries an explicit `% 256`.  Go strings ranged over
as runes are modelled as `List Char` (Lean `Char` is exactly a Unicode
scalar value, which is what a well-formed Go string yields).  Go
`time.Duration` (an `int64` count of nanoseconds) is modelled as `Int`
with truncated division (`Int.tdiv`), matching Go's integer division.
Fallible Go functions return `Except Err`; a Go runtime panic
(out-of-range slice index) is modelled by the distinguished error
`Err.IndexOutOfRange`.
-/

/-- The closed set of failure outcomes of the codec (package-level `Err*`
error values of the Go source, plus `IndexOutOfRange` standing for a Go
runtime panic and `UnexpectedEOF` standing for `io` read failures). -/
inductive Err where
  | UnknownEncoding
  | UnknownMessageType
  | IncorrectSize
  | NonRelative
  | IncorrectUserDataHeaderLength
  | UnsupportedTypeOfNumber
  | UnevenNumber
  | IncorrectDataLength
  | ParseUintFailure
  | UnexpectedEOF
  | IndexOutOfRange
  deriving DecidableEq, Repr

deriving instance DecidableEq for Except

namespace pdu

/-- `pdu.Swap`: `(octet << 4) | (octet >> 4 & 0x0F)` on a byte. -/
def Swap (octet : Nat) : Nat :=
  ((octet <<< 4) % 256) ||| ((octet >>> 4) &&& 0x0F)

/-- `pdu.Encode`: two decimal digits of `value` packed as BCD,
high nibble `(value % 100) / 10`, low nibble `value % 10`. -/
def Encode (value : Nat) : Nat :=
  let lo := value % 10
  let hi := (value % 100) / 10
  (hi <<< 4) ||| lo

/-- `pdu.Decode`: `(high nibble) * 10 + low nibble`. -/
def Decode (octet : Nat) : Nat :=
  let lo := octet &&& 0x0F
  let hi := (octet >>> 4) &&& 0x0F
  hi * 10 + lo

/-- The little-endian digit accumulation loop of `pdu.EncodeSemi`
(`for c > 0 { bucket = append(bucket, c % 10); c = (c - c%10) / 10 }`),
written with a fuel argument so that the recursion is structural
(keeping it kernel-evaluable); `chunkBucket` supplies fuel `c ≥` the
number of iterations. -/
def chunkBucketGo : Nat → Nat → List Nat
  | _, 0 => []
  | 0, _ + 1 => []
  | fuel + 1, c + 1 => (c + 1) % 10 :: chunkBucketGo fuel ((c + 1) / 10)

/-- The digit bucket of one chunk, little-endian. -/
def chunkBucket (c : Nat) : List Nat := chunkBucketGo c c

/-- Digits contributed by one chunk in `pdu.EncodeSemi`: a leading 0 when
the chunk is below 10, then the chunk's decimal digits most significant
first (the bucket is appended in reverse). -/
def chunkDigits (c : Nat) : List Nat :=
  (if c < 10 then [0] else []) ++ (chunkBucket c).reverse

/-- The packing loop of `pdu.EncodeSemi`: pairs of digits become one
byte, first digit in the low nibble, second in the high nibble; a
trailing lone digit gets `0xF` in the high nibble. -/
def packSemiDigits : List Nat → List Nat
  | [] => []
  | [d] => [0xF0 ||| d]
  | d1 :: d2 :: rest => ((d2 <<< 4) ||| d1) :: packSemiDigits rest

/-- `pdu.EncodeSemi`: packs the given numerical chunks in semi-octet
representation. -/
def EncodeSemi (chunks : List Nat) : List Nat :=
  packSemiDigits (chunks.flatMap chunkDigits)

/-- `pdu.DecodeSemi`: each byte yields `low*10 + high`; a high nibble of
`0xF` contributes only the low nibble and stops decoding. -/
def DecodeSemi : List Nat → List Nat
  | [] => []
  | oct :: rest =>
    let half := oct >>> 4
    if half = 0xF then [oct &&& 0x0F]
    else ((oct &&& 0x0F) * 10 + half) :: DecodeSemi rest

/-- `pdu.DecodeSemiAddress`: each byte contributes the decimal text of
its low nibble then of its high nibble; a high nibble of `0xF`
contributes only the low nibble's text and stops. -/
def DecodeSemiAddress : List Nat → List Char
  | [] => []
  | oct :: rest =>
    let half := oct >>> 4
    if half = 0xF then Nat.toDigits 10 (oct &&& 0x0F)
    else Nat.toDigits 10 (oct &&& 0x0F) ++ Nat.toDigits 10 half ++
      DecodeSemiAddress rest

/-- One rune's UTF-16 code units, as produced by Go's `utf16.Encode`
(every Lean `Char` is a valid Unicode scalar value, so the
replacement-character branch of the Go library is unreachable). -/
def utf16EncodeChar (c : Char) : List Nat :=
  let v := c.toNat
  if v < 0x10000 then [v]
  else [0xD800 + (((v - 0x10000) >>> 10) &&& 0x3FF),
        0xDC00 + ((v - 0x10000) &&& 0x3FF)]

/-- Go `utf16.Encode` over the runes of a string. -/
def utf16Encode (s : List Char) : List Nat :=
  s.flatMap utf16EncodeChar

/-- `pdu.EncodeUcs2`: UTF-16 code units emitted big-endian
(`byte(n&0xFF00>>8), byte(n&0x00FF)`). -/
def EncodeUcs2 (str : List Char) : List Nat :=
  (utf16Encode str).flatMap fun n => [(n &&& 0xFF00) >>> 8, n &&& 0x00FF]

/-- The pairing loop of `pdu.DecodeUcs2`:
`uint16(octets[i])<<8 | uint16(octets[i+1])` over consecutive pairs. -/
def bytesToUnits : List Nat → List Nat
  | b1 :: b2 :: rest => ((b1 <<< 8) ||| b2) :: bytesToUnits rest
  | _ => []

/-- Go `utf16.Decode`: code units below `0xD800` or at/above `0xE000`
decode to themselves; a high surrogate followed by a low surrogate
combines; anything else becomes U+FFFD. -/
def utf16Decode : List Nat → List Char
  | [] => []
  | [r] =>
    if r < 0xD800 ∨ 0xE000 ≤ r then [Char.ofNat r]
    else [Char.ofNat 0xFFFD]
  | r :: r2 :: rest =>
    if r < 0xD800 ∨ 0xE000 ≤ r then Char.ofNat r :: utf16Decode (r2 :: rest)
    else if (0xD800 ≤ r ∧ r < 0xDC00) ∧ (0xDC00 ≤ r2 ∧ r2 < 0xE000) then
      Char.ofNat (0x10000 + (((r - 0xD800) <<< 10) ||| (r2 - 0xDC00))) ::
        utf16Decode rest
    else Char.ofNat 0xFFFD :: utf16Decode (r2 :: rest)

/-- `pdu.DecodeUcs2` (the revision taking `startsWithHeader`): empty
input fails with `IncorrectDataLength`; with a header, `octets[0]+1`
leading bytes are skipped and a too-short remainder fails likewise; an
odd payload fails with `UnevenNumber`; otherwise bytes are paired
big-endian and decoded as UTF-16. -/
def DecodeUcs2 (octets : List Nat) (startsWithHeader : Bool) :
    Except Err (List Char) :=
  let octetsLng := octets.length
  if octetsLng = 0 then .error .IncorrectDataLength
  else
    let headerLng := if startsWithHeader then octets.headD 0 + 1 else 0
    if startsWithHeader ∧ octetsLng ≤ headerLng then
      .error .IncorrectDataLength
    else if (octetsLng - headerLng) % 2 ≠ 0 then .error .UnevenNumber
    else .ok (utf16Decode (bytesToUnits (octets.drop headerLng)))

/-- Modelled from the spec: the GSM 7-bit codec (`pdu/7bit.go`) is not
under `src/`; only its callers and tests are.  Section 4.2 of the spec
describes the default-extension table: the glyphs `^ { } \ [ ~ ] |` and
the euro sign map to `ESC <septet>`.  The septet values are the standard
TS 03.38 single-shift assignments. -/
def gsm7Ext? (c : Char) : Option Nat :=
  match c with
  | '^' => some 0x14
  | '{' => some 0x28
  | '}' => some 0x29
  | '\\' => some 0x2F
  | '[' => some 0x3C
  | '~' => some 0x3D
  | ']' => some 0x3E
  | '|' => some 0x40
  | '€' => some 0x65
  | _ => none

/-- Modelled from the spec: the TS 03.38 default alphabet referenced in
section 4.2 — 128 septet values covering Latin and Greek glyphs, with
`0x1B` reserved as ESC.  The table coincides with ASCII on most of the
printable range; the non-ASCII positions carry the standard TS 03.38
glyphs (Greek capitals at `0x10`–`0x1A`, accented Latin letters at the
borders). -/
def gsm7Septet? (c : Char) : Option Nat :=
  match c with
  | '@' => some 0x00
  | '£' => some 0x01
  | '$' => some 0x02
  | '¥' => some 0x03
  | 'è' => some 0x04
  | 'é' => some 0x05
  | 'ù' => some 0x06
  | 'ì' => some 0x07
  | 'ò' => some 0x08
  | 'Ç' => some 0x09
  | '\n' => some 0x0A
  | 'Ø' => some 0x0B
  | 'ø' => some 0x0C
  | '\r' => some 0x0D
  | 'Å' => some 0x0E
  | 'å' => some 0x0F
  | 'Δ' => some 0x10
  | '_' => some 0x11
  | 'Φ' => some 0x12
  | 'Γ' => some 0x13
  | 'Λ' => some 0x14
  | 'Ω' => some 0x15
  | 'Π' => some 0x16
  | 'Ψ' => some 0x17
  | 'Σ' => some 0x18
  | 'Θ' => some 0x19
  | 'Ξ' => some 0x1A
  | 'Æ' => some 0x1C
  | 'æ' => some 0x1D
  | 'ß' => some 0x1E
  | 'É' => some 0x1F
  | '¤' => some 0x24
  | '¡' => some 0x40
  | 'Ä' => some 0x5B
  | 'Ö' => some 0x5C
  | 'Ñ' => some 0x5D
  | 'Ü' => some 0x5E
  | '§' => some 0x5F
  | '¿' => some 0x60
  | 'ä' => some 0x7B
  | 'ö' => some 0x7C
  | 'ñ' => some 0x7D
  | 'ü' => some 0x7E
  | 'à' => some 0x7F
  | _ =>
    -- positions that agree with ASCII:  space..# % .. ? A..Z a..z
    -- minus the positions claimed above and the escaped glyphs
    let v := c.toNat
    if v = 0x20 ∨ v = 0x21 ∨ v = 0x22 ∨ v = 0x23 ∨
       (0x25 ≤ v ∧ v ≤ 0x3F) ∨ (0x41 ≤ v ∧ v ≤ 0x5A) ∨
       (0x61 ≤ v ∧ v ≤ 0x7A) then some v
    else none

/-- Modelled from the spec (section 4.2): the encode-direction
translation — each code point becomes its septet, extension glyphs
become `ESC` plus their extension septet, and unmappable code points are
substituted by `?` (the repo's own 7-bit tests show `ы` encoding as
`?`). -/
def translate7 (s : List Char) : List Nat :=
  s.flatMap fun c =>
    match gsm7Septet? c with
    | some v => [v]
    | none =>
      match gsm7Ext? c with
      | some e => [0x1B, e]
      | none => [0x3F]

/-- Bit `t` of the little-endian septet bitstream. -/
def septetStreamBit (raw : List Nat) (t : Nat) : Nat :=
  ((raw.getD (t / 7) 0) >>> (t % 7)) &&& 1

/-- Octet `j` of the packed stream: bits `8j .. 8j+7`, least significant
first. -/
def packOctet (raw : List Nat) (j : Nat) : Nat :=
  (List.range 8).foldl (fun a k => a ||| (septetStreamBit raw (8 * j + k) <<< k)) 0

/-- Modelled from the spec (section 4.2): pack septets as a little-endian
bitstream into octets; when exactly seven spare bits would remain in the
final octet (septet count ≡ 7 mod 8) a CR septet is appended as padding,
and a real trailing CR that would end exactly on an octet boundary is
doubled, matching the repo's `TestEncode7Bit` vectors. -/
def pack7Bit (raw : List Nat) : List Nat :=
  let padded :=
    if raw.length % 8 = 7 then raw ++ [0x0D]
    else if raw.length % 8 = 0 ∧ raw.getLast? = some 0x0D then raw ++ [0x0D]
    else raw
  (List.range ((7 * padded.length + 7) / 8)).map (packOctet padded)

/-- Bit `t` of the little-endian octet bitstream. -/
def octetStreamBit (octets : List Nat) (t : Nat) : Nat :=
  ((octets.getD (t / 8) 0) >>> (t % 8)) &&& 1

/-- Septet `k` of the unpacked stream: bits `7k .. 7k+6`. -/
def unpackSeptet (octets : List Nat) (k : Nat) : Nat :=
  (List.range 7).foldl (fun a i => a ||| (octetStreamBit octets (7 * k + i) <<< i)) 0

/-- Modelled from the spec (section 4.2): unpacking reverses the packing,
yielding `⌊8·len/7⌋` septets; one trailing CR padding septet is removed,
matching the repo's `TestDecode7Bit` vectors. -/
def unpack7Bit (octets : List Nat) : List Nat :=
  let septets := (List.range ((8 * octets.length) / 7)).map (unpackSeptet octets)
  if septets.getLast? = some 0x0D then septets.dropLast else septets

/-- Modelled from the spec: decode-direction glyph of a septet (inverse
of `gsm7Septet?`; unmapped septets decode to `?`). -/
def gsm7Char (v : Nat) : Char :=
  match v with
  | 0x00 => '@'
  | 0x01 => '£'
  | 0x02 => '$'
  | 0x03 => '¥'
  | 0x04 => 'è'
  | 0x05 => 'é'
  | 0x06 => 'ù'
  | 0x07 => 'ì'
  | 0x08 => 'ò'
  | 0x09 => 'Ç'
  | 0x0A => '\n'
  | 0x0B => 'Ø'
  | 0x0C => 'ø'
  | 0x0D => '\r'
  | 0x0E => 'Å'
  | 0x0F => 'å'
  | 0x10 => 'Δ'
  | 0x11 => '_'
  | 0x12 => 'Φ'
  | 0x13 => 'Γ'
  | 0x14 => 'Λ'
  | 0x15 => 'Ω'
  | 0x16 => 'Π'
  | 0x17 => 'Ψ'
  | 0x18 => 'Σ'
  | 0x19 => 'Θ'
  | 0x1A => 'Ξ'
  | 0x1C => 'Æ'
  | 0x1D => 'æ'
  | 0x1E => 'ß'
  | 0x1F => 'É'
  | 0x24 => '¤'
  | 0x40 => '¡'
  | 0x5B => 'Ä'
  | 0x5C => 'Ö'
  | 0x5D => 'Ñ'
  | 0x5E => 'Ü'
  | 0x5F => '§'
  | 0x60 => '¿'
  | 0x7B => 'ä'
  | 0x7C => 'ö'
  | 0x7D => 'ñ'
  | 0x7E => 'ü'
  | 0x7F => 'à'
  | _ =>
    if v = 0x20 ∨ v = 0x21 ∨ v = 0x22 ∨ v = 0x23 ∨
       (0x25 ≤ v ∧ v ≤ 0x3F) ∨ (0x41 ≤ v ∧ v ≤ 0x5A) ∨
       (0x61 ≤ v ∧ v ≤ 0x7A) then Char.ofNat v
    else '?'

/-- Modelled from the spec: extension glyph of a septet following ESC;
unknown extension indices decode to `?`. -/
def gsm7ExtChar (v : Nat) : Char :=
  match v with
  | 0x14 => '^'
  | 0x28 => '{'
  | 0x29 => '}'
  | 0x2F => '\\'
  | 0x3C => '['
  | 0x3D => '~'
  | 0x3E => ']'
  | 0x40 => '|'
  | 0x65 => '€'
  | _ => '?'

/-- Modelled from the spec (section 4.2): decode-direction translation
tracking ESC state — an ESC septet consumes the next septet as an
extension index. -/
def translate7Back : List Nat → List Char
  | [] => []
  | 0x1B :: e :: rest => gsm7ExtChar e :: translate7Back rest
  | v :: rest => gsm7Char v :: translate7Back rest

/-- Modelled from the spec: `pdu.Encode7Bit` — translate then pack. -/
def Encode7Bit (str : List Char) : List Nat :=
  pack7Bit (translate7 str)

/-- Modelled from the spec: `pdu.Decode7Bit` — unpack then translate;
per section 4.2 decode never fails structurally, translation substitutes
`?`. -/
def Decode7Bit (octets : List Nat) : Except Err (List Char) :=
  .ok (translate7Back (unpack7Bit octets))

end pdu

namespace sms

/-- `MessageTypes` constants (`Deliver`, `Submit`, `StatusReport`). -/
def MessageTypes.Deliver : Nat := 0x00

def MessageTypes.Submit : Nat := 0x01

def MessageTypes.StatusReport : Nat := 0x02

/-- `Encodings` constants: raw DCS bytes. -/
def Encodings.Gsm7Bit : Nat := 0x00

def Encodings.UCS2 : Nat := 0x08

def Encodings.Gsm7Bit_2 : Nat := 0x11

def Encodings.Gsm7Bit_3 : Nat := 0x01

/-- `ValidityPeriodFormats` constants. -/
def ValidityPeriodFormats.FieldNotPresent : Nat := 0x00

def ValidityPeriodFormats.Relative : Nat := 0x02

def ValidityPeriodFormats.Enhanced : Nat := 0x01

def ValidityPeriodFormats.Absolute : Nat := 0x03

/-- `StatusCategories` constants. -/
def StatusCategories.Complete : Nat := 0x00

def StatusCategories.TemporaryError : Nat := 0x01

def StatusCategories.PermanentError : Nat := 0x02

def StatusCategories.FinalError : Nat := 0x04

def StatusCategories.Unknown : Nat := 0x80

/-- `StatusCodes.Category`, written exactly as the Go switch is: each
case is a conjunction `constant >= s && s <= constant`, and the default
branch extracts bits 6 and 5. -/
def StatusCodes.Category (s : Nat) : Nat :=
  if (0b00000011 ≥ s ∧ s ≤ 0b00010000) ∨
     (0b00100110 ≥ s ∧ s ≤ 0b00111111) ∨
     (0b01001010 ≥ s ∧ s ≤ 0b01011111) ∨
     (0b01100110 ≥ s ∧ s ≤ 0b11111111) then
    StatusCategories.Unknown
  else
    (s >>> 5) &&& 0x03

/-- Go `time.Duration` in nanoseconds. -/
def timeNanosecond : Int := 1

def timeSecond : Int := 1000000000

def timeMinute : Int := 60 * timeSecond

def timeHour : Int := 60 * timeMinute

/-- Go `byte(x)` for a signed 64-bit quantity: two's-complement
truncation, i.e. the Euclidean remainder modulo 256. -/
def byteOfInt (x : Int) : Nat := (x.emod 256).toNat

/-- `RelativeValidityPeriod.Octet`, one branch per Go case, Go duration
division being truncated integer division.  The third case keeps the
source's expression `(d - d/time.Hour*12) / (time.Minute*30) + 143`
verbatim: `d/time.Hour*12` is a duration of `(d/hour)*12` nanoseconds. -/
def RelativeValidityPeriod.Octet (v : Int) : Nat :=
  let d := v
  if d.tdiv timeMinute < 5 then 0x00
  else if d.tdiv timeHour < 12 then byteOfInt (d.tdiv (timeMinute * 5))
  else if d.tdiv timeHour < 24 then
    byteOfInt ((d - d.tdiv timeHour * 12).tdiv (timeMinute * 30) + 143)
  else if d.tdiv timeHour < 744 then
    byteOfInt (d.tdiv (timeHour * 24) + 166)
  else
    let weeks := d.tdiv (timeHour * 24 * 7)
    if weeks > 62 then 0xFF else byteOfInt (weeks + 192)

/-- `RelativeValidityPeriod.ReadFrom`: the piecewise inverse.  A value
outside every case leaves the duration unchanged; as all 0..255 inputs
are covered the result is always assigned. -/
def RelativeValidityPeriod.ReadFrom (oct : Nat) : Int :=
  let n : Int := oct
  if 0 ≤ n ∧ n ≤ 143 then 5 * timeMinute * n
  else if 144 ≤ n ∧ n ≤ 167 then 12 * timeHour + 30 * timeMinute * (n - 143)
  else if 168 ≤ n ∧ n ≤ 196 then 24 * timeHour * (n - 166)
  else if 197 ≤ n ∧ n ≤ 255 then 7 * 24 * timeHour * (n - 192)
  else 0

/-- A `sms.Timestamp`: the wall-clock fields of the instant in its own
fixed-offset zone (what Go's `Date()`/`Clock()` return) together with
the zone offset in seconds (what `Zone()` returns). -/
structure Timestamp where
  year : Nat
  month : Nat
  day : Nat
  hour : Nat
  minute : Nat
  second : Nat
  offsetSec : Int
  deriving DecidableEq, Repr

/-- Go's zero `time.Time` (January 1, year 1, 00:00:00 UTC). -/
def Timestamp.zero : Timestamp := ⟨1, 1, 1, 0, 0, 0, 0⟩

/-- `Timestamp.PDU`: seven semi-octet bytes `YY MM DD hh mm ss zz`;
the timezone is `|offset| / 3600 * 4` quarters (Go integer division),
and a negative offset sets bit `0x04` of the swapped TZ byte. -/
def Timestamp.PDU (t : Timestamp) : List Nat :=
  let offset := t.offsetSec
  let negativeOffset := offset < 0
  let o := (if negativeOffset then -offset else offset).toNat
  let quarters := o / 3600 * 4
  let zz := pdu.Swap (pdu.Encode quarters)
  [pdu.Swap (pdu.Encode (t.year % 1000)),
   pdu.Swap (pdu.Encode t.month),
   pdu.Swap (pdu.Encode t.day),
   pdu.Swap (pdu.Encode t.hour),
   pdu.Swap (pdu.Encode t.minute),
   pdu.Swap (pdu.Encode t.second),
   if negativeOffset then zz ||| 0x04 else zz]

/-- `Timestamp.ReadFrom`.  Go builds
`time.Date(fields…, time.UTC).Add(-offset).In(time.FixedZone(offset))`;
for calendar-range fields the wall clock of that instant in its fixed
zone is exactly the decoded fields, so the model keeps them and records
the signed offset (`nowYear` stands for `time.Now().Year()`, impure in
Go, from which the current millennium is taken).  The sign bit is read
from bit `0x04` of the raw seventh octet, which is cleared via
`& 0xF7` before swap-decoding the quarter count. -/
def Timestamp.ReadFrom (nowYear : Nat) (octets : List Nat) : Timestamp :=
  let millennium := nowYear / 1000 * 1000
  let year := pdu.Decode (pdu.Swap (octets.getD 0 0))
  let month := pdu.Decode (pdu.Swap (octets.getD 1 0))
  let day := pdu.Decode (pdu.Swap (octets.getD 2 0))
  let hour := pdu.Decode (pdu.Swap (octets.getD 3 0))
  let minute := pdu.Decode (pdu.Swap (octets.getD 4 0))
  let second := pdu.Decode (pdu.Swap (octets.getD 5 0))
  let negativeOffset := (octets.getD 6 0) &&& 0x04 ≠ 0
  let quarters := pdu.Decode (pdu.Swap ((octets.getD 6 0) &&& 0xF7))
  let offset : Int := quarters * 15 * 60
  { year := millennium + year, month := month, day := day, hour := hour,
    minute := minute, second := second,
    offsetSec := if negativeOffset then -offset else offset }

/-- A `sms.PhoneNumber` is a Go string, modelled as its runes. -/
abbrev PhoneNumber := List Char

/-- `strconv.ParseUint(str, 10, 64)` on an all-digit string: fails on
the empty string or on overflow past `2^64 - 1`. -/
def parseUint (s : List Char) : Option Nat :=
  if s.isEmpty then none
  else
    let v := s.foldl (fun a c => a * 10 + (c.toNat - 48)) 0
    if v < 2 ^ 64 then some v else none

/-- `PhoneNumber.Type`: `0x80 | TON<<4 | NPI(E.164)`, TON International
when the text starts with `+`, National otherwise. -/
def PhoneNumber.Type (p : PhoneNumber) : Nat :=
  if p.headD ' ' = '+' then 0x80 ||| 0x10 ||| 0x01 else 0x80 ||| 0x20 ||| 0x01

/-- `PhoneNumber.PDU`: strip a leading `+`, keep decimal digits, parse
them as an unsigned integer and emit the type byte followed by the
semi-octet encoding; returns the digit count alongside. -/
def PhoneNumber.PDU (p : PhoneNumber) : Except Err (Nat × List Nat) :=
  let digitStr := if p.headD ' ' = '+' then p.drop 1 else p
  let str := digitStr.filter fun r => '0' ≤ r ∧ r ≤ '9'
  let n := str.length
  match parseUint str with
  | none => .error .ParseUintFailure
  | some number => .ok (n, PhoneNumber.Type p :: pdu.EncodeSemi [number])

/-- `PhoneNumber.ReadFrom` (the revision returning an error): empty
input is `IncorrectSize`; TON Alphanumeric decodes octets via GSM
7-bit, International via semi-octet digits with a `+` prefix, National
without; any other TON is `UnsupportedTypeOfNumber`. -/
def PhoneNumber.ReadFrom (octets : List Nat) : Except Err PhoneNumber :=
  match octets with
  | [] => .error .IncorrectSize
  | t :: rest =>
    let typ := t &&& 0b01110000
    if typ = 0x50 then
      match pdu.Decode7Bit rest with
      | .error e => .error e
      | .ok addr => .ok addr
    else if typ = 0x10 then .ok ('+' :: pdu.DecodeSemiAddress rest)
    else if typ = 0x20 then .ok (pdu.DecodeSemiAddress rest)
    else .error .UnsupportedTypeOfNumber

/-- `sms.UserDataHeader`. -/
structure UserDataHeader where
  TotalNumber : Nat
  Sequence : Nat
  Tag : Nat
  deriving DecidableEq, Repr

/-- Go's zero `UserDataHeader`. -/
def UserDataHeader.zero : UserDataHeader := ⟨0, 0, 0⟩

/-- `UserDataHeader.ReadFrom`.  The Go source evaluates `octets[0]`
before any length check, so an empty slice is a runtime panic (index out
of range), modelled by `Err.IndexOutOfRange`.  Otherwise a declared
header length inconsistent with the buffer (`octetsLng - headerLng <= 0`
over Go ints, i.e. `octetsLng ≤ headerLng`) or a header of at most five
bytes is `IncorrectUserDataHeaderLength`; on success bytes 3, 4 and 5
become tag, total and sequence. -/
def UserDataHeader.ReadFrom (octets : List Nat) :
    Except Err UserDataHeader :=
  match octets with
  | [] => .error .IndexOutOfRange
  | o0 :: _ =>
    let octetsLng := octets.length
    let headerLng := o0 + 1
    if octetsLng ≤ headerLng ∨ headerLng ≤ 5 then
      .error .IncorrectUserDataHeaderLength
    else
      .ok { Sequence := octets.getD 5 0, TotalNumber := octets.getD 4 0,
            Tag := octets.getD 3 0 }

/-- `sms.blocks`: `n/block`, rounded up unless it divides evenly. -/
def blocks (n block : Nat) : Nat :=
  if n % block = 0 then n / block else n / block + 1

/-- Go `len` of the UTF-8 encoding of one rune. -/
def utf8CharLen (c : Char) : Nat :=
  if c.toNat < 0x80 then 1
  else if c.toNat < 0x800 then 2
  else if c.toNat < 0x10000 then 3
  else 4

/-- Go `len(s)` for a string ranged as runes: its UTF-8 byte count. -/
def utf8Len (s : List Char) : Nat :=
  (s.map utf8CharLen).sum

/-- `sms.cutStr`: keeps the first `n` runes when `n` is below the UTF-8
byte length (Go slices the rune array; when the rune count is below `n`
but the byte count is not, Go panics — no caller in the claims reaches
that window). -/
def cutStr (str : List Char) (n : Nat) : List Char :=
  if n < utf8Len str then str.take n else str

/-- Low-level `sms.smsDeliver`. -/
structure smsDeliver where
  MessageTypeIndicator : Nat
  MoreMessagesToSend : Bool
  LoopPrevention : Bool
  ReplyPath : Bool
  UserDataHeaderIndicator : Bool
  StatusReportIndication : Bool
  OriginatingAddress : List Nat
  ProtocolIdentifier : Nat
  DataCodingScheme : Nat
  ServiceCentreTimestamp : List Nat
  UserDataLength : Nat
  UserData : List Nat
  deriving DecidableEq, Repr

/-- `smsDeliver.Bytes`: header flags exactly as the source places them —
`!MoreMessagesToSend` at bit 2, LoopPrevention at bit 3,
StatusReportIndication at bit 4, UserDataHeaderIndicator at bit 5 and
ReplyPath at bit 6 — followed by the field sequence. -/
def smsDeliver.Bytes (s : smsDeliver) : List Nat :=
  let h0 := s.MessageTypeIndicator
  let h1 := if !s.MoreMessagesToSend then h0 ||| (0x01 <<< 2) else h0
  let h2 := if s.LoopPrevention then h1 ||| (0x01 <<< 3) else h1
  let h3 := if s.StatusReportIndication then h2 ||| (0x01 <<< 4) else h2
  let h4 := if s.UserDataHeaderIndicator then h3 ||| (0x01 <<< 5) else h3
  let header := if s.ReplyPath then h4 ||| (0x01 <<< 6) else h4
  header :: s.OriginatingAddress ++
    [s.ProtocolIdentifier, s.DataCodingScheme] ++
    s.ServiceCentreTimestamp ++ [s.UserDataLength] ++ s.UserData

/-- `smsDeliver.FromBytes`: reads header (UserDataHeaderIndicator from
bit 6 and ReplyPath from bit 7), the originating address block of
`blocks(len,2)+2` bytes (re-reading the length byte), PID, DCS, a
7-byte timestamp, UDL, and up to UDL bytes of user data (whose read
error Go ignores, truncating instead).  Returns the byte count read. -/
def smsDeliver.FromBytes (octets : List Nat) :
    Except Err (smsDeliver × Nat) :=
  match octets with
  | [] => .error .UnexpectedEOF
  | header :: r1 =>
    match r1 with
    | [] => .error .UnexpectedEOF
    | oaLen :: _ =>
      let oaSize := blocks oaLen 2 + 2
      if r1.length < oaSize then .error .UnexpectedEOF
      else
        let oa := r1.take oaSize
        let r2 := r1.drop oaSize
        match r2 with
        | [] => .error .UnexpectedEOF
        | pid :: r3 =>
          match r3 with
          | [] => .error .UnexpectedEOF
          | dcs :: r4 =>
            if r4.length < 7 then .error .UnexpectedEOF
            else
              let scts := r4.take 7
              let r5 := r4.drop 7
              match r5 with
              | [] => .error .UnexpectedEOF
              | udl :: r6 =>
                let ud := r6.take udl
                .ok ({ MessageTypeIndicator := header &&& 0x03,
                       MoreMessagesToSend := (header >>> 2) &&& 0x01 = 0,
                       LoopPrevention := (header >>> 3) &&& 0x01 = 1,
                       StatusReportIndication := (header >>> 4) &&& 0x01 = 1,
                       UserDataHeaderIndicator := header &&& (0x01 <<< 6) ≠ 0,
                       ReplyPath := header &&& (0x01 <<< 7) ≠ 0,
                       OriginatingAddress := oa,
                       ProtocolIdentifier := pid,
                       DataCodingScheme := dcs,
                       ServiceCentreTimestamp := scts,
                       UserDataLength := udl,
                       UserData := ud },
                     1 + oaSize + 1 + 1 + 7 + 1 + ud.length)

/-- Low-level `sms.smsSubmit`. -/
structure smsSubmit where
  MessageTypeIndicator : Nat
  RejectDuplicates : Bool
  ValidityPeriodFormat : Nat
  ReplyPath : Bool
  UserDataHeaderIndicator : Bool
  StatusReportRequest : Bool
  MessageReference : Nat
  DestinationAddress : List Nat
  ProtocolIdentifier : Nat
  DataCodingScheme : Nat
  ValidityPeriod : List Nat
  UserDataLength : Nat
  UserData : List Nat
  deriving DecidableEq, Repr

/-- `smsSubmit.Bytes`: header (RejectDuplicates bit 2, VPF bits 3-4,
StatusReportRequest bit 5, UDHI bit 6, ReplyPath bit 7), message
reference, destination address, PID, DCS, the validity period bytes
when the format is present, UDL and user data. -/
def smsSubmit.Bytes (s : smsSubmit) : List Nat :=
  let h0 := s.MessageTypeIndicator
  let h1 := if s.RejectDuplicates then h0 ||| (0x01 <<< 2) else h0
  let h2 := (h1 ||| ((s.ValidityPeriodFormat <<< 3) % 256)) % 256
  let h3 := if s.StatusReportRequest then h2 ||| (0x01 <<< 5) else h2
  let h4 := if s.UserDataHeaderIndicator then h3 ||| (0x01 <<< 6) else h3
  let header := if s.ReplyPath then h4 ||| (0x01 <<< 7) else h4
  header :: s.MessageReference :: s.DestinationAddress ++
    [s.ProtocolIdentifier, s.DataCodingScheme] ++
    (if s.ValidityPeriodFormat ≠ ValidityPeriodFormats.FieldNotPresent then
      s.ValidityPeriod else []) ++
    [s.UserDataLength] ++ s.UserData

/-- `smsSubmit.FromBytes`: header, message reference, destination
address (whose declared length must not exceed 16, else
`IncorrectSize`), PID, DCS, one validity byte when VPF is present, UDL
and up-to-UDL user data bytes (read error ignored). -/
def smsSubmit.FromBytes (octets : List Nat) :
    Except Err (smsSubmit × Nat) :=
  match octets with
  | [] => .error .UnexpectedEOF
  | header :: r1 =>
    let vpf := (header >>> 3) &&& 0x03
    match r1 with
    | [] => .error .UnexpectedEOF
    | mref :: r2 =>
      match r2 with
      | [] => .error .UnexpectedEOF
      | daLen :: _ =>
        if daLen > 16 then .error .IncorrectSize
        else
          let daSize := blocks daLen 2 + 2
          if r2.length < daSize then .error .UnexpectedEOF
          else
            let da := r2.take daSize
            let r3 := r2.drop daSize
            match r3 with
            | [] => .error .UnexpectedEOF
            | pid :: r4 =>
              match r4 with
              | [] => .error .UnexpectedEOF
              | dcs :: r5 =>
                let vpRead : Except Err (List Nat × List Nat) :=
                  if vpf ≠ ValidityPeriodFormats.FieldNotPresent then
                    match r5 with
                    | [] => .error .UnexpectedEOF
                    | vp :: r6 => .ok ([vp], r6)
                  else .ok ([], r5)
                match vpRead with
                | .error e => .error e
                | .ok (vp, r6) =>
                  match r6 with
                  | [] => .error .UnexpectedEOF
                  | udl :: r7 =>
                    let ud := r7.take udl
                    .ok ({ MessageTypeIndicator := header &&& 0x03,
                           RejectDuplicates := header &&& (0x01 <<< 2) > 0,
                           ValidityPeriodFormat := vpf,
                           StatusReportRequest := header &&& (0x01 <<< 5) > 0,
                           UserDataHeaderIndicator := header &&& (0x01 <<< 6) > 0,
                           ReplyPath := header &&& (0x01 <<< 7) > 0,
                           MessageReference := mref,
                           DestinationAddress := da,
                           ProtocolIdentifier := pid,
                           DataCodingScheme := dcs,
                           ValidityPeriod := vp,
                           UserDataLength := udl,
                           UserData := ud },
                         1 + 1 + daSize + 1 + 1 + vp.length + 1 + ud.length)

/-- Low-level `sms.smsStatusReport`. -/
structure smsStatusReport where
  MessageTypeIndicator : Nat
  MoreMessagesToSend : Bool
  LoopPrevention : Bool
  UserDataHeaderIndicator : Bool
  StatusReportQualificator : Bool
  MessageReference : Nat
  DestinationAddress : List Nat
  Parameters : Nat
  ProtocolIdentifier : Nat
  DataCodingScheme : Nat
  ServiceCentreTimestamp : List Nat
  DischargeTimestamp : List Nat
  Status : Nat
  UserDataLength : Nat
  UserData : List Nat
  deriving DecidableEq, Repr

/-- `smsStatusReport.Bytes`: header (`!MoreMessagesToSend` bit 2,
LoopPrevention bit 3, StatusReportQualificator bit 5, UDHI bit 6),
message reference, destination address, both timestamps, status, then a
parameter indicator synthesized from the non-zero optional fields and
the corresponding trailer bytes. -/
def smsStatusReport.Bytes (s : smsStatusReport) : List Nat :=
  let h0 := s.MessageTypeIndicator
  let h1 := if !s.MoreMessagesToSend then h0 ||| (0x01 <<< 2) else h0
  let h2 := if s.LoopPrevention then h1 ||| (0x01 <<< 3) else h1
  let h3 := if s.StatusReportQualificator then h2 ||| (0x01 <<< 5) else h2
  let header := if s.UserDataHeaderIndicator then h3 ||| (0x01 <<< 6) else h3
  let ind0 := 0
  let ind1 := if s.ProtocolIdentifier ≠ 0 then ind0 ||| (0x01 <<< 0) else ind0
  let ind2 := if s.DataCodingScheme ≠ 0 then ind1 ||| (0x01 <<< 1) else ind1
  let indicator :=
    if s.UserDataHeaderIndicator then ind2 ||| (0x01 <<< 2) else ind2
  let trailer :=
    (if s.ProtocolIdentifier ≠ 0 then [s.ProtocolIdentifier] else []) ++
    (if s.DataCodingScheme ≠ 0 then [s.DataCodingScheme] else []) ++
    (if s.UserDataHeaderIndicator then s.UserDataLength :: s.UserData else [])
  header :: s.MessageReference :: s.DestinationAddress ++
    s.ServiceCentreTimestamp ++ s.DischargeTimestamp ++ [s.Status] ++
    indicator :: (if indicator ≠ 0 then trailer else [])

/-- `smsStatusReport.FromBytes`: header (StatusReportQualificator read
from bit 4), message reference, destination address (declared length at
most 16), two 7-byte timestamps and the status octet; a missing
parameter-indicator octet is not an error — the read count excluding it
is returned with the optional fields at their zero values.  When the
indicator is present its bits 0, 1 and 2 select PID, DCS and UDL plus
user data (user-data read error ignored). -/
def smsStatusReport.FromBytes (octets : List Nat) :
    Except Err (smsStatusReport × Nat) :=
  match octets with
  | [] => .error .UnexpectedEOF
  | header :: r1 =>
    match r1 with
    | [] => .error .UnexpectedEOF
    | mref :: r2 =>
      match r2 with
      | [] => .error .UnexpectedEOF
      | daLen :: _ =>
        if daLen > 16 then .error .IncorrectSize
        else
          let daSize := blocks daLen 2 + 2
          if r2.length < daSize then .error .UnexpectedEOF
          else
            let da := r2.take daSize
            let r3 := r2.drop daSize
            if r3.length < 7 then .error .UnexpectedEOF
            else
              let scts := r3.take 7
              let r4 := r3.drop 7
              if r4.length < 7 then .error .UnexpectedEOF
              else
                let dis := r4.take 7
                let r5 := r4.drop 7
                match r5 with
                | [] => .error .UnexpectedEOF
                | status :: r6 =>
                  let base : smsStatusReport :=
                    { MessageTypeIndicator := header &&& 0x03,
                      MoreMessagesToSend := (header >>> 2) &&& 0x01 = 0,
                      LoopPrevention := (header >>> 3) &&& 0x01 = 1,
                      StatusReportQualificator := (header >>> 4) &&& 0x01 = 1,
                      UserDataHeaderIndicator := header &&& (0x01 <<< 6) ≠ 0,
                      MessageReference := mref,
                      DestinationAddress := da,
                      Parameters := 0,
                      ProtocolIdentifier := 0,
                      DataCodingScheme := 0,
                      ServiceCentreTimestamp := scts,
                      DischargeTimestamp := dis,
                      Status := status,
                      UserDataLength := 0,
                      UserData := [] }
                  let nBase := 1 + 1 + daSize + 7 + 7 + 1
                  match r6 with
                  | [] => .ok (base, nBase)
                  | params :: r7 =>
                    let pidRead : Except Err (Nat × List Nat) :=
                      if params &&& 0x01 ≠ 0 then
                        match r7 with
                        | [] => .error .UnexpectedEOF
                        | pid :: r8 => .ok (pid, r8)
                      else .ok (0, r7)
                    match pidRead with
                    | .error e => .error e
                    | .ok (pid, r8) =>
                      let dcsRead : Except Err (Nat × List Nat) :=
                        if params &&& 0x02 ≠ 0 then
                          match r8 with
                          | [] => .error .UnexpectedEOF
                          | dcs :: r9 => .ok (dcs, r9)
                        else .ok (0, r8)
                      match dcsRead with
                      | .error e => .error e
                      | .ok (dcs, r9) =>
                        let udRead : Except Err (Nat × List Nat × Nat) :=
                          if params &&& 0x04 ≠ 0 then
                            match r9 with
                            | [] => .error .UnexpectedEOF
                            | udl :: r10 => .ok (udl, r10.take udl, 1 + (r10.take udl).length)
                          else .ok (0, [], 0)
                        match udRead with
                        | .error e => .error e
                        | .ok (udl, ud, udBytes) =>
                          let rec' : smsStatusReport :=
                            { base with
                              Parameters := params
                              ProtocolIdentifier := pid
                              DataCodingScheme := dcs
                              UserDataLength := udl
                              UserData := ud }
                          .ok (rec',
                               nBase + 1 +
                                 (if params &&& 0x01 ≠ 0 then 1 else 0) +
                                 (if params &&& 0x02 ≠ 0 then 1 else 0) +
                                 udBytes)

/-- The high-level `sms.Message` record; field defaults are Go's zero
values. -/
structure Message where
  Type' : Nat := 0
  Encoding : Nat := 0
  VP : Int := 0
  VPFormat : Nat := 0
  ServiceCenterTime : Timestamp := Timestamp.zero
  DischargeTime : Timestamp := Timestamp.zero
  ServiceCenterAddress : PhoneNumber := []
  Address : PhoneNumber := []
  Text : List Char := []
  UserDataHeader : UserDataHeader := UserDataHeader.zero
  MessageReference : Nat := 0
  Status : Nat := 0
  ReplyPathExists : Bool := false
  UserDataStartsWithHeader : Bool := false
  StatusReportIndication : Bool := false
  StatusReportRequest : Bool := false
  StatusReportQualificator : Bool := false
  MoreMessagesToSend : Bool := false
  LoopPrevention : Bool := false
  RejectDuplicates : Bool := false
  deriving DecidableEq, Repr

/-- Go's zero `Message` (`*s = Message{}`). -/
def Message.empty : Message := {}

/-- The user-data encoding switch shared by the three encoders: the
7-bit family packs the text and sets UDL to `byte(len(s.Text))` — Go's
byte length of the UTF-8 string — while UCS-2 sets UDL to the byte
count of the encoded user data; other DCS values fail. -/
def Message.encodeUserData (m : Message) : Except Err (List Nat × Nat) :=
  if m.Encoding = Encodings.Gsm7Bit ∨ m.Encoding = Encodings.Gsm7Bit_2 then
    .ok (pdu.Encode7Bit m.Text, utf8Len m.Text % 256)
  else if m.Encoding = Encodings.UCS2 then
    let ud := pdu.EncodeUcs2 m.Text
    .ok (ud, ud.length % 256)
  else .error .UnknownEncoding

/-- `Message.encodeDeliver`: build the low-level record (PID fixed to
0x00) and serialize it. -/
def Message.encodeDeliver (m : Message) : Except Err (List Nat) :=
  match PhoneNumber.PDU m.Address with
  | .error e => .error e
  | .ok (addrLen, addr) =>
    match m.encodeUserData with
    | .error e => .error e
    | .ok (ud, udl) =>
      .ok (smsDeliver.Bytes
        { MessageTypeIndicator := m.Type'
          MoreMessagesToSend := m.MoreMessagesToSend
          LoopPrevention := m.LoopPrevention
          ReplyPath := m.ReplyPathExists
          UserDataHeaderIndicator := m.UserDataStartsWithHeader
          StatusReportIndication := m.StatusReportIndication
          OriginatingAddress := (addrLen % 256) :: addr
          ProtocolIdentifier := 0x00
          DataCodingScheme := m.Encoding
          ServiceCentreTimestamp := m.ServiceCenterTime.PDU
          UserDataLength := udl
          UserData := ud })

/-- `Message.encodeSubmit`: the validity switch emits one relative
octet, or fails with `NonRelative` for Absolute and Enhanced formats. -/
def Message.encodeSubmit (m : Message) : Except Err (List Nat) :=
  match PhoneNumber.PDU m.Address with
  | .error e => .error e
  | .ok (addrLen, addr) =>
    let vpE : Except Err (List Nat) :=
      if m.VPFormat = ValidityPeriodFormats.Relative then
        .ok [RelativeValidityPeriod.Octet m.VP]
      else if m.VPFormat = ValidityPeriodFormats.Absolute ∨
              m.VPFormat = ValidityPeriodFormats.Enhanced then
        .error .NonRelative
      else .ok []
    match vpE with
    | .error e => .error e
    | .ok vp =>
      match m.encodeUserData with
      | .error e => .error e
      | .ok (ud, udl) =>
        .ok (smsSubmit.Bytes
          { MessageTypeIndicator := m.Type'
            RejectDuplicates := m.RejectDuplicates
            ValidityPeriodFormat := m.VPFormat
            ReplyPath := m.ReplyPathExists
            UserDataHeaderIndicator := m.UserDataStartsWithHeader
            StatusReportRequest := m.StatusReportRequest
            MessageReference := m.MessageReference
            DestinationAddress := (addrLen % 256) :: addr
            ProtocolIdentifier := 0x00
            DataCodingScheme := m.Encoding
            ValidityPeriod := vp
            UserDataLength := udl
            UserData := ud })

/-- `Message.encodeStatusReport`. -/
def Message.encodeStatusReport (m : Message) : Except Err (List Nat) :=
  match PhoneNumber.PDU m.Address with
  | .error e => .error e
  | .ok (addrLen, addr) =>
    match m.encodeUserData with
    | .error e => .error e
    | .ok (ud, udl) =>
      .ok (smsStatusReport.Bytes
        { MessageTypeIndicator := m.Type'
          MoreMessagesToSend := m.MoreMessagesToSend
          LoopPrevention := m.LoopPrevention
          UserDataHeaderIndicator := m.UserDataStartsWithHeader
          StatusReportQualificator := m.StatusReportQualificator
          MessageReference := m.MessageReference
          DestinationAddress := (addrLen % 256) :: addr
          Parameters := 0
          ProtocolIdentifier := 0
          DataCodingScheme := m.Encoding
          ServiceCentreTimestamp := m.ServiceCenterTime.PDU
          DischargeTimestamp := m.DischargeTime.PDU
          Status := m.Status
          UserDataLength := udl
          UserData := ud })

/-- `Message.PDU`: SMSC prefix (a zero length byte for an empty service
centre address) followed by the variant TPDU; the returned count is the
TPDU length, excluding the prefix. -/
def Message.PDU (m : Message) : Except Err (Nat × List Nat) :=
  let smscE : Except Err (List Nat) :=
    if m.ServiceCenterAddress.length < 1 then .ok [0x00]
    else
      match PhoneNumber.PDU m.ServiceCenterAddress with
      | .error e => .error e
      | .ok (_, octets) => .ok ((octets.length % 256) :: octets)
  match smscE with
  | .error e => .error e
  | .ok smsc =>
    let bodyE : Except Err (List Nat) :=
      if m.Type' = MessageTypes.Deliver then m.encodeDeliver
      else if m.Type' = MessageTypes.Submit then m.encodeSubmit
      else if m.Type' = MessageTypes.StatusReport then m.encodeStatusReport
      else .error .UnknownMessageType
    match bodyE with
    | .error e => .error e
    | .ok tpdu => .ok (tpdu.length, smsc ++ tpdu)

/-- `Message.decodeUserData`: the 7-bit family decodes the packed bytes
then cuts to `dataLen` runes; UCS-2 decodes honouring the
starts-with-header flag; other DCS values fail. -/
def Message.decodeUserData (m : Message) (data : List Nat) (dataLen : Nat) :
    Except Err (List Char) :=
  if m.Encoding = Encodings.Gsm7Bit ∨ m.Encoding = Encodings.Gsm7Bit_2 then
    match pdu.Decode7Bit data with
    | .error e => .error e
    | .ok text => .ok (cutStr text dataLen)
  else if m.Encoding = Encodings.UCS2 then
    pdu.DecodeUcs2 data m.UserDataStartsWithHeader
  else .error .UnknownEncoding

/-- `Message.decodeDeliver` applied to the state `s0` produced by
`Message.ReadFrom` so far: copies the flags, parses the user-data
header when the indicator is set (propagating its failure), decodes the
originating address (Go discards this error, leaving the field), the
DCS, the timestamp and the user data. -/
def Message.decodeDeliver (nowYear : Nat) (s0 : Message) (data : List Nat) :
    Except Err (Message × Nat) :=
  match smsDeliver.FromBytes data with
  | .error e => .error e
  | .ok (sms, n) =>
    let s1 := { s0 with
      MoreMessagesToSend := sms.MoreMessagesToSend
      LoopPrevention := sms.LoopPrevention
      ReplyPathExists := sms.ReplyPath
      UserDataStartsWithHeader := sms.UserDataHeaderIndicator }
    let udhE :=
      if sms.UserDataHeaderIndicator then
        UserDataHeader.ReadFrom sms.UserData
      else Except.ok s1.UserDataHeader
    match udhE with
    | .error e => .error e
    | .ok udh =>
      let s2 := { s1 with
        UserDataHeader := udh
        StatusReportIndication := sms.StatusReportIndication
        Address :=
          match PhoneNumber.ReadFrom (sms.OriginatingAddress.drop 1) with
          | .ok a => a
          | .error _ => s1.Address
        Encoding := sms.DataCodingScheme
        ServiceCenterTime :=
          Timestamp.ReadFrom nowYear sms.ServiceCentreTimestamp }
      match s2.decodeUserData sms.UserData sms.UserDataLength with
      | .error e => .error e
      | .ok text => .ok ({ s2 with Text := text }, n)

/-- `Message.decodeSubmit` applied to the state `s0` produced by
`Message.ReadFrom` so far.  The source's `NonRelative` guard switches on
`s.VPFormat` — the field of the freshly zeroed `Message`, not the
decoded format — before assigning it. -/
def Message.decodeSubmit (s0 : Message) (data : List Nat) :
    Except Err (Message × Nat) :=
  match smsSubmit.FromBytes data with
  | .error e => .error e
  | .ok (sms, n) =>
    let s1 := { s0 with RejectDuplicates := sms.RejectDuplicates }
    if s1.VPFormat = ValidityPeriodFormats.Absolute ∨
       s1.VPFormat = ValidityPeriodFormats.Enhanced then
      .error .NonRelative
    else
      let s2 := { s1 with
        VPFormat := sms.ValidityPeriodFormat
        MessageReference := sms.MessageReference
        ReplyPathExists := sms.ReplyPath
        UserDataStartsWithHeader := sms.UserDataHeaderIndicator
        StatusReportRequest := sms.StatusReportRequest
        Address :=
          match PhoneNumber.ReadFrom (sms.DestinationAddress.drop 1) with
          | .ok a => a
          | .error _ => s1.Address
        Encoding := sms.DataCodingScheme }
      let s3 := if s2.VPFormat ≠ ValidityPeriodFormats.FieldNotPresent then
          { s2 with
            VP := RelativeValidityPeriod.ReadFrom (sms.ValidityPeriod.headD 0) }
        else s2
      match s3.decodeUserData sms.UserData sms.UserDataLength with
      | .error e => .error e
      | .ok text => .ok ({ s3 with Text := text }, n)

/-- `Message.decodeStatusReport` applied to the state `s0` produced by
`Message.ReadFrom` so far. -/
def Message.decodeStatusReport (nowYear : Nat) (s0 : Message)
    (data : List Nat) : Except Err (Message × Nat) :=
  match smsStatusReport.FromBytes data with
  | .error e => .error e
  | .ok (sms, n) =>
    let s1 := { s0 with
      MessageReference := sms.MessageReference
      MoreMessagesToSend := sms.MoreMessagesToSend
      LoopPrevention := sms.LoopPrevention
      UserDataStartsWithHeader := sms.UserDataHeaderIndicator }
    let udhE :=
      if sms.UserDataHeaderIndicator then
        UserDataHeader.ReadFrom sms.UserData
      else Except.ok s1.UserDataHeader
    match udhE with
    | .error e => .error e
    | .ok udh =>
      let s2 := { s1 with
        UserDataHeader := udh
        StatusReportQualificator := sms.StatusReportQualificator
        Status := sms.Status
        Address :=
          match PhoneNumber.ReadFrom (sms.DestinationAddress.drop 1) with
          | .ok a => a
          | .error _ => s1.Address
        Encoding := sms.DataCodingScheme
        ServiceCenterTime :=
          Timestamp.ReadFrom nowYear sms.ServiceCentreTimestamp
        DischargeTime := Timestamp.ReadFrom nowYear sms.DischargeTimestamp }
      match s2.decodeUserData sms.UserData sms.UserDataLength with
      | .error e => .error e
      | .ok text => .ok ({ s2 with Text := text }, n)

/-- `Message.ReadFrom`: reads and bounds-checks the SMSC length, decodes
the service centre address (discarding its error, as the source does),
peeks the first TPDU byte for the message type and dispatches on it;
the returned count is the SMSC prefix length plus the TPDU bytes read.
`nowYear` stands for Go's impure `time.Now().Year()` used by timestamp
decoding. -/
def Message.ReadFrom (nowYear : Nat) (octets : List Nat) :
    Except Err (Message × Nat) :=
  match octets with
  | [] => .error .UnexpectedEOF
  | scLen :: rest =>
    if scLen > 16 then .error .IncorrectSize
    else if rest.length < scLen then .error .UnexpectedEOF
    else
      let addr := rest.take scLen
      let s0 : Message := { Message.empty with
        ServiceCenterAddress :=
          match PhoneNumber.ReadFrom addr with
          | .ok a => a
          | .error _ => Message.empty.ServiceCenterAddress }
      match rest.drop scLen with
      | [] => .error .UnexpectedEOF
      | msgType :: _ =>
        let s1 := { s0 with Type' := msgType &&& 0x03 }
        let tpdu := octets.drop (1 + scLen)
        let resE : Except Err (Message × Nat) :=
          if s1.Type' = MessageTypes.Deliver then
            s1.decodeDeliver nowYear tpdu
          else if s1.Type' = MessageTypes.Submit then
            s1.decodeSubmit tpdu
          else if s1.Type' = MessageTypes.StatusReport then
            s1.decodeStatusReport nowYear tpdu
          else .error .UnknownMessageType
        match resE with
        | .error e => .error e
        | .ok (m, dec) => .ok (m, 1 + scLen + dec)

end sms

/-- Digit-pair packing as the claim words it: pairs pack
first-low/second-high, and an odd total ends with `0xF` in the high
nibble (written arithmetically, independent of the source's bit
operators). -/
def specPackPairs : List Nat → List Nat
  | [] => []
  | [d] => [0xF0 + d]
  | d1 :: d2 :: rest => (d2 * 16 + d1) :: specPackPairs rest

/-- The claim's own description of `EncodeSemi`, formalized word for
word for comparison with the source: every number below 10 — zero
included — is padded with a leading zero so it contributes at least two
digits; digits are taken most significant first (`Nat.digits` is
little-endian, hence the reversal). -/
def encodeSemiSpecClaimed (chunks : List Nat) : List Nat :=
  specPackPairs (chunks.flatMap fun c =>
    if c < 10 then [0, c] else (Nat.digits 10 c).reverse)

/-- The claim amended to what `pdu.EncodeSemi` does: the number zero
contributes a single digit `0` rather than the two digits `00`;
everything else is as claimed. -/
def encodeSemiSpecAmended (chunks : List Nat) : List Nat :=
  specPackPairs (chunks.flatMap fun c =>
    if c = 0 then [0]
    else if c < 10 then [0, c] else (Nat.digits 10 c).reverse)

namespace pdu

theorem shiftLeft_or_eq_add {k b : Nat} (a : Nat) (h : b < 2 ^ k) :
    a <<< k ||| b = a * 2 ^ k + b := by
  apply Nat.eq_of_testBit_eq
  intro i
  rw [Nat.testBit_or, Nat.testBit_shiftLeft, Nat.mul_comm a,
    Nat.testBit_mul_pow_two_add _ h]
  by_cases hik : k ≤ i
  · have hb : b.testBit i = false :=
      Nat.testBit_lt_two_pow (Nat.lt_of_lt_of_le h
        (Nat.pow_le_pow_right (by norm_num) hik))
    simp [hik, Nat.not_lt.mpr hik, hb]
  · simp [hik, Nat.lt_of_not_le hik]

theorem and_ff00_shiftRight (n : Nat) :
    (n &&& 0xFF00) >>> 8 = (n >>> 8) &&& 0xFF := by
  apply Nat.eq_of_testBit_eq
  intro i
  rw [Nat.testBit_shiftRight, Nat.testBit_and, Nat.testBit_and,
    Nat.testBit_shiftRight]
  by_cases h : i < 8
  · interval_cases i <;> rfl
  · have h1 : Nat.testBit 0xFF00 (8 + i) = false :=
      Nat.testBit_lt_two_pow
        (by calc (0xFF00 : Nat) < 2 ^ 16 := by norm_num
              _ ≤ 2 ^ (8 + i) := Nat.pow_le_pow_right (by norm_num) (by omega))
    have h2 : Nat.testBit 0xFF i = false :=
      Nat.testBit_lt_two_pow
        (by calc (0xFF : Nat) < 2 ^ 8 := by norm_num
              _ ≤ 2 ^ i := Nat.pow_le_pow_right (by norm_num) (by omega))
    simp [h1, h2]

theorem byte_pair_recombine {n : Nat} (h : n < 0x10000) :
    (((n &&& 0xFF00) >>> 8) <<< 8) ||| (n &&& 0x00FF) = n := by
  have hlow : n &&& 0x00FF = n % 2 ^ 8 := Nat.and_pow_two_sub_one_eq_mod n 8
  have hhigh : (n &&& 0xFF00) >>> 8 = n / 2 ^ 8 := by
    rw [and_ff00_shiftRight]
    have h8 : n >>> 8 &&& 0xFF = (n >>> 8) % 2 ^ 8 :=
      Nat.and_pow_two_sub_one_eq_mod _ 8
    rw [h8, Nat.shiftRight_eq_div_pow]
    exact Nat.mod_eq_of_lt (by omega)
  rw [hlow, hhigh, shiftLeft_or_eq_add _ (Nat.mod_lt _ (by norm_num))]
  exact Nat.div_add_mod' n (2 ^ 8)

theorem ten_bits_recombine (x : Nat) :
    ((x >>> 10) <<< 10) ||| (x &&& 0x3FF) = x := by
  have hlow : x &&& 0x3FF = x % 2 ^ 10 := Nat.and_pow_two_sub_one_eq_mod x 10
  rw [hlow, Nat.shiftRight_eq_div_pow,
    shiftLeft_or_eq_add _ (Nat.mod_lt _ (by norm_num))]
  exact Nat.div_add_mod' x (2 ^ 10)

theorem utf16EncodeChar_lt (c : Char) : ∀ u ∈ utf16EncodeChar c, u < 0x10000 := by
  intro u hu
  unfold utf16EncodeChar at hu
  by_cases h : c.toNat < 0x10000
  · simp [h] at hu; omega
  · simp [h] at hu
    have h1 : ((c.toNat - 0x10000) >>> 10) &&& 0x3FF ≤ 0x3FF := Nat.and_le_right
    have h2 : (c.toNat - 0x10000) &&& 0x3FF ≤ 0x3FF := Nat.and_le_right
    rcases hu with hu | hu <;> omega

theorem bytesToUnits_flatMap (units : List Nat)
    (h : ∀ u ∈ units, u < 0x10000) :
    bytesToUnits (units.flatMap fun n => [(n &&& 0xFF00) >>> 8, n &&& 0x00FF]) =
      units := by
  induction units with
  | nil => rfl
  | cons u rest ih =>
    simp only [List.flatMap_cons, List.cons_append, List.singleton_append,
      List.nil_append]
    rw [bytesToUnits, byte_pair_recombine (h u (by simp)),
      ih (fun v hv => h v (by simp [hv]))]

theorem utf16Decode_cons_direct {r : Nat} (t : List Nat)
    (h : r < 0xD800 ∨ 0xE000 ≤ r) :
    utf16Decode (r :: t) = Char.ofNat r :: utf16Decode t := by
  cases t with
  | nil => simp [utf16Decode, h]
  | cons r2 rest => simp [utf16Decode, h]

theorem utf16Decode_cons_pair {hi lo : Nat} (t : List Nat)
    (hhi : 0xD800 ≤ hi ∧ hi < 0xDC00) (hlo : 0xDC00 ≤ lo ∧ lo < 0xE000) :
    utf16Decode (hi :: lo :: t) =
      Char.ofNat (0x10000 + (((hi - 0xD800) <<< 10) ||| (lo - 0xDC00))) ::
        utf16Decode t := by
  have h1 : ¬(hi < 0xD800 ∨ 0xE000 ≤ hi) := by omega
  simp [utf16Decode, h1, hhi, hlo]

theorem utf16Decode_utf16Encode (s : List Char) :
    utf16Decode (utf16Encode s) = s := by
  induction s with
  | nil => rfl
  | cons c rest ih =>
    have hvalid : c.toNat < 0xD800 ∨ (0xDFFF < c.toNat ∧ c.toNat < 0x110000) :=
      c.valid
    simp only [utf16Encode, List.flatMap_cons]
    by_cases h : c.toNat < 0x10000
    · have henc : utf16EncodeChar c = [c.toNat] := by
        unfold utf16EncodeChar; simp [h]
      rw [henc, List.singleton_append,
        utf16Decode_cons_direct _ (by omega), Char.ofNat_toNat]
      exact congrArg _ ih
    · have hhi : ((c.toNat - 0x10000) >>> 10) &&& 0x3FF =
          (c.toNat - 0x10000) >>> 10 := by
        have hb : (c.toNat - 0x10000) >>> 10 < 2 ^ 10 := by
          rw [Nat.shiftRight_eq_div_pow]
          omega
        calc ((c.toNat - 0x10000) >>> 10) &&& 0x3FF
            = ((c.toNat - 0x10000) >>> 10) % 2 ^ 10 :=
              Nat.and_pow_two_sub_one_eq_mod _ 10
          _ = (c.toNat - 0x10000) >>> 10 := Nat.mod_eq_of_lt hb
      have henc : utf16EncodeChar c =
          [0xD800 + ((c.toNat - 0x10000) >>> 10),
           0xDC00 + ((c.toNat - 0x10000) &&& 0x3FF)] := by
        unfold utf16EncodeChar
        simp only [h, if_false, hhi]
      have hhiBound : (c.toNat - 0x10000) >>> 10 ≤ 0x3FF := by
        rw [Nat.shiftRight_eq_div_pow]; omega
      have hloBound : (c.toNat - 0x10000) &&& 0x3FF ≤ 0x3FF := Nat.and_le_right
      rw [henc, List.cons_append, List.singleton_append,
        utf16Decode_cons_pair _ (by omega) (by omega)]
      have hback : 0xD800 + ((c.toNat - 0x10000) >>> 10) - 0xD800 =
          (c.toNat - 0x10000) >>> 10 := by omega
      have hback2 : 0xDC00 + ((c.toNat - 0x10000) &&& 0x3FF) - 0xDC00 =
          (c.toNat - 0x10000) &&& 0x3FF := by omega
      rw [hback, hback2, ten_bits_recombine]
      have hsum : 0x10000 + (c.toNat - 0x10000) = c.toNat := by omega
      rw [hsum, Char.ofNat_toNat]
      exact congrArg _ ih

theorem flatMap_pairs_length (units : List Nat) :
    (units.flatMap fun n => [(n &&& 0xFF00) >>> 8, n &&& 0x00FF]).length =
      2 * units.length := by
  induction units with
  | nil => rfl
  | cons u rest ih => simp [List.flatMap_cons, ih]; omega

theorem utf16Encode_ne_nil {c : Char} (rest : List Char) :
    utf16Encode (c :: rest) ≠ [] := by
  simp only [utf16Encode, List.flatMap_cons]
  unfold utf16EncodeChar
  by_cases h : c.toNat < 0x10000 <;> simp [h]

theorem chunkBucketGo_eq_digits :
    ∀ fuel c, c ≤ fuel → chunkBucketGo fuel c = Nat.digits 10 c
  | fuel, 0, _ => by
    cases fuel <;> simp [chunkBucketGo, Nat.digits_zero]
  | 0, c + 1, h => absurd h (by omega)
  | fuel + 1, c + 1, h => by
    rw [chunkBucketGo,
      chunkBucketGo_eq_digits fuel ((c + 1) / 10) (by omega),
      ← Nat.digits_def' (by norm_num : 1 < 10) (Nat.succ_pos c)]

theorem chunkBucket_eq_digits (c : Nat) :
    chunkBucket c = Nat.digits 10 c :=
  chunkBucketGo_eq_digits c c (Nat.le_refl c)

theorem chunkDigits_eq_amended (c : Nat) :
    chunkDigits c =
      (if c = 0 then [0]
       else if c < 10 then [0, c] else (Nat.digits 10 c).reverse) := by
  unfold chunkDigits
  rw [chunkBucket_eq_digits]
  by_cases h0 : c = 0
  · simp [h0]
  · by_cases h10 : c < 10
    · rw [if_pos h10, if_neg h0, if_pos h10]
      have hd : Nat.digits 10 c = [c] := by
        rw [Nat.digits_def' (by norm_num : 1 < 10) (Nat.pos_of_ne_zero h0)]
        simp [Nat.mod_eq_of_lt h10, Nat.div_eq_of_lt h10]
      simp [hd]
    · simp [h10, h0]

theorem chunkDigits_lt (c : Nat) : ∀ d ∈ chunkDigits c, d < 16 := by
  intro d h
  unfold chunkDigits at h
  rw [chunkBucket_eq_digits] at h
  simp only [List.mem_append, List.mem_reverse] at h
  rcases h with h | h
  · split at h <;> simp_all
  · have := Nat.digits_lt_base (by norm_num) h
    omega

theorem packSemiDigits_eq_spec (l : List Nat) (h : ∀ d ∈ l, d < 16) :
    packSemiDigits l = specPackPairs l := by
  induction l using packSemiDigits.induct with
  | case1 => rfl
  | case2 d =>
    rw [packSemiDigits, specPackPairs]
    have hd : d < 16 := h d (by simp)
    congr 1
    have hor : (0xF : Nat) <<< 4 ||| d = 0xF * 2 ^ 4 + d :=
      shiftLeft_or_eq_add 0xF (by omega)
    simpa using hor
  | case3 d1 d2 rest ih =>
    rw [packSemiDigits, specPackPairs]
    have hd1 : d1 < 16 := h d1 (by simp)
    have hor : d2 <<< 4 ||| d1 = d2 * 2 ^ 4 + d1 :=
      shiftLeft_or_eq_add d2 (by omega)
    rw [hor, ih (fun d hd => h d (by simp [hd]))]
    norm_num

end pdu

/-- Claim C1: decoding the octets produced by encoding a Message is
claimed to reconstruct every field, including all boolean flags.  The
code violates this: `smsDeliver.Bytes` places the
user-data-header-indicator at header bit 5 (and reply-path at bit 6)
while `smsDeliver.FromBytes` — like the comment below it and the 3GPP
layout — reads it from bit 6 (reply-path from bit 7).  The Deliver
message here (UCS-2 text `"a"`, address `"+12"`, empty SMSC, all §3
invariants satisfied) encodes with the flag set, yet decoding its own
PDU returns the flag cleared. -/
theorem c1_deliver_udhi_flag_lost :
    sms.Message.PDU
      { Type' := sms.MessageTypes.Deliver
        Encoding := sms.Encodings.UCS2
        Text := ['a']
        Address := ['+', '1', '2']
        UserDataStartsWithHeader := true } =
      .ok (16, [0x00, 0x24, 0x02, 0x91, 0x21, 0x00, 0x08,
                0x10, 0x10, 0x10, 0x00, 0x00, 0x00, 0x00,
                0x02, 0x00, 0x61]) ∧
    (sms.Message.ReadFrom 2026
        [0x00, 0x24, 0x02, 0x91, 0x21, 0x00, 0x08,
         0x10, 0x10, 0x10, 0x00, 0x00, 0x00, 0x00,
         0x02, 0x00, 0x61]).map
      (fun r => r.1.UserDataStartsWithHeader) = .ok false := by
  decide

/-- Claim C2: the status-categorization table (0x00-0x02 Complete,
0x20-0x25 TemporaryError, 0x40-0x49 PermanentError, 0x60-0x65
FinalError, all else Unknown).  The code violates it: each switch case
is written `const >= s && s <= const` instead of a range check, so the
four cases collapse to `s ≤ 0x66` and every status byte up to 0x66 —
including all the documented Complete/Temporary/Permanent/Final codes —
resolves to Unknown. -/
theorem c2_status_category_collapsed :
    sms.StatusCodes.Category 0x00 = sms.StatusCategories.Unknown ∧
    sms.StatusCodes.Category 0x20 = sms.StatusCategories.Unknown ∧
    sms.StatusCodes.Category 0x40 = sms.StatusCategories.Unknown ∧
    sms.StatusCodes.Category 0x60 = sms.StatusCategories.Unknown ∧
    ((List.range 0x67).all fun s =>
      sms.StatusCodes.Category s == sms.StatusCategories.Unknown) = true ∧
    sms.StatusCategories.Unknown ≠ sms.StatusCategories.Complete := by
  decide

/-- Claim C3: `12304050607033` should decode to
2021-03-04T05:06:07+08:15 and `1230405060703B` to
2021-03-04T05:06:07−08:15, both re-encoding to the same bytes.  The
code violates this: the sign bit of the test vector lives in raw bit
0x08 of the seventh octet while `ReadFrom` tests raw bit 0x04, so
`…3B` also decodes to the **positive** offset; and `PDU` computes
`offset/3600*4` quarters, truncating the 15-minute part, so re-encoding
the +08:15 instant yields TZ octet 0x23 (and the −08:15 instant 0x27),
never 0x33 or 0x3B. -/
theorem c3_timestamp_sign_and_quarters :
    sms.Timestamp.ReadFrom 2026 [0x12, 0x30, 0x40, 0x50, 0x60, 0x70, 0x33] =
      ⟨2021, 3, 4, 5, 6, 7, 29700⟩ ∧
    sms.Timestamp.ReadFrom 2026 [0x12, 0x30, 0x40, 0x50, 0x60, 0x70, 0x3B] =
      ⟨2021, 3, 4, 5, 6, 7, 29700⟩ ∧
    (29700 : Int) = 8 * 3600 + 15 * 60 ∧
    sms.Timestamp.PDU ⟨2021, 3, 4, 5, 6, 7, 29700⟩ =
      [0x12, 0x30, 0x40, 0x50, 0x60, 0x70, 0x23] ∧
    sms.Timestamp.PDU ⟨2021, 3, 4, 5, 6, 7, -29700⟩ =
      [0x12, 0x30, 0x40, 0x50, 0x60, 0x70, 0x27] := by
  decide

/-- Claim C4: decoding a Submit PDU whose VPF selects Absolute or
Enhanced must fail with `NonRelative`.  The code violates this: the
guard in `Message.decodeSubmit` switches on the `VPFormat` field of the
freshly zeroed Message (always FieldNotPresent) instead of the decoded
format, so it can never fire through `Message.ReadFrom`.  This Submit
PDU (SMSC prefix `0591515501 00`, TPDU header 0x09 selecting Enhanced
VPF) decodes successfully, reporting the Enhanced format. -/
theorem c4_enhanced_vpf_not_rejected :
    (sms.Message.ReadFrom 2026
        [0x05, 0x91, 0x51, 0x55, 0x01, 0x00, 0x09, 0x01,
         0x08, 0x91, 0x51, 0x55, 0x11, 0x11, 0x00, 0x08,
         0x42, 0x02, 0x04, 0x2D]).map (fun r => r.1.VPFormat) =
      .ok sms.ValidityPeriodFormats.Enhanced := by
  decide

/-- Claim C5 counterexample: the claim states
`relative_encode(12h) = 0x90 (=144)`, but
`RelativeValidityPeriod.Octet` of exactly 12 hours is 0xA6 (=166): the
source's third case computes `(d - d/time.Hour*12)/(30 min) + 143`,
where `d/time.Hour*12` is a 144-nanosecond duration, so 12h lands at
`143 + 23 = 166` (and 24 hours lands in the day case at 167, not the
claimed 0xA8 = 168). -/
theorem c5_relative_vp_12h_counterexample :
    sms.RelativeValidityPeriod.Octet (12 * sms.timeHour) = 0xA6 ∧
    (0xA6 : Nat) ≠ 0x90 := by
  decide

/-- Claim C5 as amended: the boundary octets the encoder actually
produces — 0 ↦ 0x00, 5 minutes ↦ 0x01, 12 hours ↦ 0xA6 (166),
24 hours ↦ 0xA7 (167), 80 weeks ↦ 0xFF. -/
theorem c5_relative_vp_boundaries :
    sms.RelativeValidityPeriod.Octet 0 = 0x00 ∧
    sms.RelativeValidityPeriod.Octet (5 * sms.timeMinute) = 0x01 ∧
    sms.RelativeValidityPeriod.Octet (12 * sms.timeHour) = 0xA6 ∧
    sms.RelativeValidityPeriod.Octet (24 * sms.timeHour) = 0xA7 ∧
    sms.RelativeValidityPeriod.Octet (80 * 7 * 24 * sms.timeHour) = 0xFF := by
  decide

/-- Claim C6: for the 7-bit family the emitted UserDataLength is claimed
to equal the septet count of the packed text, which equals the
character count.  The code violates this: the encoders set
`UserDataLength = byte(len(s.Text))`, Go's UTF-8 **byte** length.  For
the one-character text `"Δ"` (a single GSM default-alphabet septet but
two UTF-8 bytes) the user-data switch emits UDL = 2 while the packed
text is the single septet 0x10. -/
theorem c6_udl_is_utf8_byte_count :
    sms.Message.encodeUserData
      { Encoding := sms.Encodings.Gsm7Bit, Text := ['Δ'] } =
      .ok ([0x10], 2) ∧
    (pdu.translate7 ['Δ']).length = 1 ∧
    (['Δ'] : List Char).length = 1 ∧
    sms.utf8Len ['Δ'] = 2 ∧
    (2 : Nat) ≠ 1 := by
  decide

/-- Claim C7 counterexample: the claim pads every number below 10 —
"including 0" — to two digits, which would make `EncodeSemi [0]` the
single byte 0x00; the source appends the leading zero but its digit
loop contributes nothing for 0, so the total digit count is odd and the
result is the F-terminated byte 0xF0. -/
theorem c7_encode_semi_zero_counterexample :
    pdu.EncodeSemi [0] = [0xF0] ∧
    encodeSemiSpecClaimed [0] = [0x00] ∧
    ([0xF0] : List Nat) ≠ [0x00] := by
  decide

/-- Claim C7 as amended: `EncodeSemi` concatenates the decimal digits of
each chunk big-endian, pads chunks in 1..9 with a leading zero, gives
the chunk 0 the single digit 0, packs digit pairs first-low/second-high
and F-terminates an odd total — i.e. it coincides with the claim's
description everywhere except at the chunk 0. -/
theorem c7_encode_semi_amended (chunks : List Nat) :
    pdu.EncodeSemi chunks = encodeSemiSpecAmended chunks := by
  unfold pdu.EncodeSemi encodeSemiSpecAmended
  rw [pdu.packSemiDigits_eq_spec _ (fun d hd => by
    simp only [List.mem_flatMap] at hd
    obtain ⟨c, _, hc⟩ := hd
    exact pdu.chunkDigits_lt c d hc)]
  congr 1
  have hfun : pdu.chunkDigits = fun c =>
      (if c = 0 then [0]
       else if c < 10 then [0, c] else (Nat.digits 10 c).reverse) :=
    funext pdu.chunkDigits_eq_amended
  rw [hfun]

/-- Claim C8 counterexample: the claim quantifies over **every**
UTF-16-representable string, but for the empty string the encoder
produces zero octets and `DecodeUcs2` rejects empty input with
`IncorrectDataLength` instead of returning the empty string. -/
theorem c8_ucs2_empty_counterexample :
    pdu.DecodeUcs2 (pdu.EncodeUcs2 []) false = .error .IncorrectDataLength ∧
    (Except.error Err.IncorrectDataLength : Except Err (List Char)) ≠
      .ok [] := by
  decide

/-- Claim C8 as amended: for every **nonempty** string the UCS-2 round
trip is the identity — `DecodeUcs2 (EncodeUcs2 s) false = ok s`.  The
proof runs through the UTF-16 encoding: both bytes of every code unit
recombine, and a surrogate pair re-decodes to its original scalar
value. -/
theorem c8_ucs2_roundtrip_nonempty (s : List Char) (h : s ≠ []) :
    pdu.DecodeUcs2 (pdu.EncodeUcs2 s) false = .ok s := by
  have hlen : (pdu.EncodeUcs2 s).length = 2 * (pdu.utf16Encode s).length :=
    pdu.flatMap_pairs_length _
  have hne : pdu.utf16Encode s ≠ [] := by
    obtain ⟨c, rest, rfl⟩ := List.exists_cons_of_ne_nil h
    exact pdu.utf16Encode_ne_nil rest
  have hpos : 0 < (pdu.utf16Encode s).length := List.length_pos.mpr hne
  unfold pdu.DecodeUcs2
  rw [if_neg (by omega)]
  simp only [Bool.false_eq_true, false_and, if_false]
  rw [if_neg (by simp [hlen])]
  rw [List.drop_zero]
  unfold pdu.EncodeUcs2
  rw [pdu.bytesToUnits_flatMap _ (fun u hu => by
    simp only [pdu.utf16Encode, List.mem_flatMap] at hu
    obtain ⟨c, _, hc⟩ := hu
    exact pdu.utf16EncodeChar_lt c u hc)]
  rw [pdu.utf16Decode_utf16Encode]

/-- Witness for C8 at the one-character string `"a"`. -/
theorem c8_ucs2_roundtrip_nonempty_witness :
    pdu.DecodeUcs2 (pdu.EncodeUcs2 ['a']) false = .ok ['a'] :=
  c8_ucs2_roundtrip_nonempty ['a'] (by decide)

/-- Claim C9: a status report whose input ends immediately after the
Status octet parses successfully — the absent parameter-indicator octet
is not an error.  `smsStatusReport.FromBytes` returns the byte count up
to and including Status (the whole input, `addrRest.length + 18`
bytes), with the parameter indicator, PID, DCS and user data left at
their zero values. -/
theorem c9_status_report_truncated_ok (header mref daLen status : Nat)
    (addrRest scts dis : List Nat)
    (hda : daLen ≤ 16)
    (haddr : addrRest.length = sms.blocks daLen 2 + 1)
    (hscts : scts.length = 7) (hdis : dis.length = 7) :
    sms.smsStatusReport.FromBytes
        (header :: mref :: daLen :: (addrRest ++ scts ++ dis ++ [status])) =
      .ok ({ MessageTypeIndicator := header &&& 0x03
             MoreMessagesToSend := (header >>> 2) &&& 0x01 = 0
             LoopPrevention := (header >>> 3) &&& 0x01 = 1
             StatusReportQualificator := (header >>> 4) &&& 0x01 = 1
             UserDataHeaderIndicator := header &&& (0x01 <<< 6) ≠ 0
             MessageReference := mref
             DestinationAddress := daLen :: addrRest
             Parameters := 0
             ProtocolIdentifier := 0
             DataCodingScheme := 0
             ServiceCentreTimestamp := scts
             DischargeTimestamp := dis
             Status := status
             UserDataLength := 0
             UserData := [] },
           addrRest.length + 18) := by
  have hsize : sms.blocks daLen 2 + 2 = addrRest.length + 1 := by omega
  simp only [sms.smsStatusReport.FromBytes]
  rw [if_neg (by omega)]
  rw [hsize]
  have hX : addrRest ++ scts ++ dis ++ [status] =
      addrRest ++ (scts ++ (dis ++ [status])) := by
    simp [List.append_assoc]
  rw [hX]
  have hdrop : (daLen :: (addrRest ++ (scts ++ (dis ++ [status])))).drop
      (addrRest.length + 1) = scts ++ (dis ++ [status]) := by
    rw [List.drop_succ_cons, List.drop_left]
  have htake : (daLen :: (addrRest ++ (scts ++ (dis ++ [status])))).take
      (addrRest.length + 1) = daLen :: addrRest := by
    rw [List.take_succ_cons, List.take_left]
  rw [if_neg (by simp)]
  rw [hdrop, htake]
  rw [if_neg (by simp [hscts, hdis])]
  have htake7a : (scts ++ (dis ++ [status])).take 7 = scts := by
    rw [← hscts]; exact List.take_left _ _
  have hdrop7a : (scts ++ (dis ++ [status])).drop 7 = dis ++ [status] := by
    rw [← hscts]; exact List.drop_left _ _
  rw [hdrop7a, htake7a]
  rw [if_neg (by simp [hdis])]
  have htake7b : (dis ++ [status]).take 7 = dis := by
    rw [← hdis]; exact List.take_left _ _
  have hdrop7b : (dis ++ [status]).drop 7 = [status] := by
    rw [← hdis]; exact List.drop_left _ _
  rw [hdrop7b, htake7b]
  have hn : 1 + 1 + (addrRest.length + 1) + 7 + 7 + 1 =
      addrRest.length + 18 := by omega
  rw [hn]

/-- Witness for C9: the 19-byte status report
`02 36 00 91 | SCTS ×7 | discharge ×7 | 00` ending right after the
Status octet. -/
theorem c9_status_report_truncated_ok_witness :
    sms.smsStatusReport.FromBytes
        (0x02 :: 0x36 :: 0x00 ::
          ([0x91] ++ [1, 2, 3, 4, 5, 6, 7] ++ [8, 9, 10, 11, 12, 13, 14] ++
            [0x00])) =
      .ok ({ MessageTypeIndicator := 0x02
             MoreMessagesToSend := true
             LoopPrevention := false
             StatusReportQualificator := false
             UserDataHeaderIndicator := false
             MessageReference := 0x36
             DestinationAddress := [0x00, 0x91]
             Parameters := 0
             ProtocolIdentifier := 0
             DataCodingScheme := 0
             ServiceCentreTimestamp := [1, 2, 3, 4, 5, 6, 7]
             DischargeTimestamp := [8, 9, 10, 11, 12, 13, 14]
             Status := 0x00
             UserDataLength := 0
             UserData := [] },
           19) :=
  c9_status_report_truncated_ok 0x02 0x36 0x00 0x00 [0x91]
    [1, 2, 3, 4, 5, 6, 7] [8, 9, 10, 11, 12, 13, 14]
    (by decide) (by decide) (by decide) (by decide)

/-- Claim C10: `UserDataHeader.ReadFrom` is claimed to return
`ErrIncorrectUserDataHeaderLength` on the empty user data reachable
from Deliver decoding with the UDHI flag set.  The code violates this:
it evaluates `octets[0]` before any length check, which on the empty
slice is a Go runtime index-out-of-range — modelled as
`Err.IndexOutOfRange` — not the claimed error.  The 14-byte Deliver PDU
here (UDHI header bit set, UDL = 0, hence empty user data) drives
`Message.ReadFrom` into exactly that access. -/
theorem c10_udh_empty_slice_out_of_range :
    sms.UserDataHeader.ReadFrom [] = .error .IndexOutOfRange ∧
    sms.Message.ReadFrom 2026
        [0x00, 0x44, 0x00, 0x91, 0x00, 0x08,
         0x00, 0x00, 0x00, 0x00, 0x00, 0x00, 0x00, 0x00] =
      .error .IndexOutOfRange ∧
    Err.IndexOutOfRange ≠ Err.IncorrectUserDataHeaderLength := by
  decide
